import Mathlib

/-!
Verification of the render orchestration subsystem of the ManimGen backend:
the code safety validator (`services/code_validator.py`), the artifact
combiner (`services/render_service.py`, `compile_project`) and the job
orchestrator (`routers/render.py`).

Embedding conventions:
* Python dictionaries holding entity records become Lean structures with the
  fields of the source records.
* The regular-expression denylist of the validator is embedded as an
  executable matcher over the exact token sequences of the source patterns.
  Each pattern only uses word boundaries, literal characters and greedy
  whitespace runs, and in each pattern a whitespace run is always followed
  by a non-whitespace literal, so greedy matching is exact.
* The Python parser (`ast.parse`), the rendering engine, the filesystem and
  the media subprocesses are external collaborators; they enter the model as
  explicit parameters (oracles), and the orchestrator's asynchronous
  background tasks become pure functions that also return the list of
  job-record events they perform, in source order.
-/

namespace ManimGen

/-- Python string truthiness of an optional string: `None` and `""` are falsy
(the source guards locator fields with plain `if value:`). -/
def pyTruthy : Option String → Bool
  | none => false
  | some s => s != ""

/-- The whitespace characters recognised by Python's `str.strip` and `\s`
on ASCII text. -/
def isPyWs (c : Char) : Bool :=
  c == ' ' || c == '\t' || c == '\n' || c == '\r' || c == '\x0b' || c == '\x0c'

/-- `not code or not code.strip()`: the string is empty or whitespace-only. -/
def pyBlank (code : String) : Bool := code.data.all isPyWs

/-- The regular-expression constructs appearing in the denylist of
`code_validator.py`: a word boundary `\b`, a literal character, `\s*` and
`\s+`.  Every denylist pattern is a sequence of these. -/
inductive RTok where
  | wordB : RTok
  | lit : Char → RTok
  | wsStar : RTok
  | wsPlus : RTok
deriving DecidableEq

/-- Python `\w` on ASCII source text: letters, digits, underscore. -/
def isWordChar (c : Char) : Bool := c.isAlphanum || c == '_'

/-- `\b` holds at a position when exactly one of the neighbouring characters
is a word character (start and end of text count as non-word). -/
def atBoundary (prev : Option Char) (rest : List Char) : Bool :=
  (match prev with | none => false | some c => isWordChar c)
    != (match rest with | [] => false | c :: _ => isWordChar c)

/-- The character preceding the remainder after a whitespace run has been
consumed from `s` (it stays `prev` when the run is empty). -/
def wsPrev (prev : Option Char) (s : List Char) : Option Char :=
  match (s.takeWhile isPyWs).getLast? with
  | some c => some c
  | none => prev

/-- Match a compiled pattern at the start of `s`; `prev` is the character
just before `s` in the full text.  Whitespace runs are consumed greedily,
which is exact for the denylist patterns (a run is always followed there by
a non-whitespace literal). -/
def reMatch : List RTok → Option Char → List Char → Bool
  | [], _, _ => true
  | .wordB :: ts, prev, s => atBoundary prev s && reMatch ts prev s
  | .lit _ :: _, _, [] => false
  | .lit c :: ts, _, d :: rest => c == d && reMatch ts (some d) rest
  | .wsStar :: ts, prev, s => reMatch ts (wsPrev prev s) (s.dropWhile isPyWs)
  | .wsPlus :: ts, _, s =>
      match s with
      | [] => false
      | d :: rest =>
          isPyWs d && reMatch ts (wsPrev (some d) rest) (rest.dropWhile isPyWs)

/-- Try the pattern at every position of the remaining text, as
`re.search` does. -/
def reSearch (p : List RTok) : Option Char → List Char → Bool
  | prev, [] => reMatch p prev []
  | prev, c :: rest => reMatch p prev (c :: rest) || reSearch p (some c) rest

/-- `re.search(pattern, code)` returned a match. -/
def matchesPattern (p : List RTok) (code : String) : Bool :=
  reSearch p none code.data

/-- The literal characters of `s` as pattern tokens. -/
def lits (s : String) : List RTok := s.data.map RTok.lit

/-- The denylist `DANGEROUS_PATTERNS` of `code_validator.py`, each raw
pattern string paired with its compiled token sequence. -/
def DANGEROUS_PATTERNS : List (String × List RTok) :=
  [ ("\\bos\\.", RTok.wordB :: lits "os."),
    ("\\bsys\\.", RTok.wordB :: lits "sys."),
    ("\\bsubprocess\\.", RTok.wordB :: lits "subprocess."),
    ("\\bopen\\s*\\(", RTok.wordB :: lits "open" ++ [RTok.wsStar, RTok.lit '(']),
    ("\\beval\\s*\\(", RTok.wordB :: lits "eval" ++ [RTok.wsStar, RTok.lit '(']),
    ("\\bexec\\s*\\(", RTok.wordB :: lits "exec" ++ [RTok.wsStar, RTok.lit '(']),
    ("\\bcompile\\s*\\(", RTok.wordB :: lits "compile" ++ [RTok.wsStar, RTok.lit '(']),
    ("\\b__import__\\s*\\(", RTok.wordB :: lits "__import__" ++ [RTok.wsStar, RTok.lit '(']),
    ("\\bimport\\s+os\\b", RTok.wordB :: lits "import" ++ [RTok.wsPlus] ++ lits "os" ++ [RTok.wordB]),
    ("\\bimport\\s+sys\\b", RTok.wordB :: lits "import" ++ [RTok.wsPlus] ++ lits "sys" ++ [RTok.wordB]),
    ("\\bimport\\s+subprocess\\b", RTok.wordB :: lits "import" ++ [RTok.wsPlus] ++ lits "subprocess" ++ [RTok.wordB]),
    ("\\bfrom\\s+os\\b", RTok.wordB :: lits "from" ++ [RTok.wsPlus] ++ lits "os" ++ [RTok.wordB]),
    ("\\bfrom\\s+sys\\b", RTok.wordB :: lits "from" ++ [RTok.wsPlus] ++ lits "sys" ++ [RTok.wordB]),
    ("\\bfrom\\s+subprocess\\b", RTok.wordB :: lits "from" ++ [RTok.wsPlus] ++ lits "subprocess" ++ [RTok.wordB]),
    ("\\bshutil\\.", RTok.wordB :: lits "shutil."),
    ("\\brequests\\.", RTok.wordB :: lits "requests."),
    ("\\burllib\\.", RTok.wordB :: lits "urllib."),
    ("\\bsocket\\.", RTok.wordB :: lits "socket."),
    ("\\bpickle\\.", RTok.wordB :: lits "pickle.") ]

/-- `check_dangerous_patterns` of `code_validator.py`: collect every
denylist pattern that matches the raw source text. -/
def check_dangerous_patterns (code : String) : Bool × List String :=
  let found := (DANGEROUS_PATTERNS.filter fun p => matchesPattern p.2 code).map Prod.fst
  (found.isEmpty, found)

/-- A base-class expression of a Python `ClassDef`: a bare name (`ast.Name`)
or anything else (attribute access, call, ...). -/
inductive PyBase where
  | name : String → PyBase
  | otherBase : PyBase
deriving DecidableEq

/-- A statement inside a class body, as far as the validator looks at it. -/
inductive PyClassItem where
  | functionDef : String → PyClassItem
  | otherItem : PyClassItem
deriving DecidableEq

/-- A node of the walked abstract syntax tree, restricted to the shapes the
validator inspects (`ast.ImportFrom`, `ast.Import`, `ast.ClassDef`). -/
inductive PyNode where
  | importFrom : Option String → PyNode
  | importNames : List String → PyNode
  | classDef : String → List PyBase → List PyClassItem → PyNode
  | otherNode : PyNode
deriving DecidableEq

/-- A parsed module: its nodes in `ast.walk` order. -/
structure PyModule where
  walked : List PyNode
deriving DecidableEq

/-- The outcome of `ast.parse`: a module, or a syntax error carrying
`e.lineno` and `e.msg`.  The host-language parser is external to the
repository, so the validator is parameterized by it. -/
def PyParse := String → Except (Nat × String) PyModule

/-- `check_syntax` of `code_validator.py` (trailing prime for Lean). -/
def check_syntax' (parse : PyParse) (code : String) : Bool × String :=
  match parse code with
  | .ok _ => (true, "")
  | .error (ln, msg) =>
      (false, "Syntax error at line " ++ toString ln ++ ": " ++ msg)

/-- Some base of the class is the bare name `Scene`. -/
def basesHaveScene (bs : List PyBase) : Bool :=
  bs.any fun b => match b with | .name i => i == "Scene" | .otherBase => false

/-- The class body defines a function named `construct`. -/
def bodyHasConstruct (body : List PyClassItem) : Bool :=
  body.any fun it =>
    match it with | .functionDef nm => nm == "construct" | .otherItem => false

/-- Some walked node imports `manim` (`from manim import ...` or
`import manim`). -/
def hasManimImport (m : PyModule) : Bool :=
  m.walked.any fun n =>
    match n with
    | .importFrom mod => mod == some "manim"
    | .importNames names => names.any fun a => a == "manim"
    | _ => false

/-- Some walked class derives from the bare name `Scene`. -/
def hasSceneClass (m : PyModule) : Bool :=
  m.walked.any fun n =>
    match n with
    | .classDef _ bs _ => basesHaveScene bs
    | _ => false

/-- Some walked class derives from `Scene` and defines `construct` (this is
exactly how the source's single walk sets `has_construct_method`). -/
def hasSceneConstruct (m : PyModule) : Bool :=
  m.walked.any fun n =>
    match n with
    | .classDef _ bs body => basesHaveScene bs && bodyHasConstruct body
    | _ => false

/-- `check_structure` of `code_validator.py`.  The `except` branch of the
source catches a parser exception and reports it as a structure-analysis
error; inside `validate_manim_code` that branch is unreachable because
syntax is checked first. -/
def check_structure (parse : PyParse) (code : String) : Bool × String :=
  match parse code with
  | .error (_, msg) => (false, "Error analyzing code structure: " ++ msg)
  | .ok m =>
      if !hasManimImport m then
        (false, "Code must import from manim (e.g., \x27from manim import *\x27)")
      else if !hasSceneClass m then
        (false, "Code must define a class that inherits from Scene")
      else if !hasSceneConstruct m then
        (false, "Scene class must have a construct method")
      else (true, "")

/-- `validate_manim_code` of `code_validator.py`: the four ordered
fail-fast checks. -/
def validate_manim_code (parse : PyParse) (code : String) : Bool × String :=
  if pyBlank code then (false, "Code is empty")
  else
    let sres := check_syntax' parse code
    if !sres.1 then (false, sres.2)
    else
      let dres := check_dangerous_patterns code
      if !dres.1 then
        (false, "Code contains dangerous patterns: " ++ String.intercalate ", " dres.2)
      else
        let stres := check_structure parse code
        if !stres.1 then (false, stres.2)
        else (true, "")

/-- `SceneStatus` of `routers/scenes.py`. -/
inductive SceneStatus where
  | pending
  | generating
  | rendering
  | completed
  | failed
deriving DecidableEq

/-- The result dictionary returned by `render_scene` in
`services/render_service.py`; the numeric duration is abstracted as a
rational. -/
structure RenderResult where
  video_url : String
  thumbnail_url : Option String
  duration : ℚ
deriving DecidableEq

/-- A scene record of `scenes_db` (`routers/scenes.py`); `created_at` and
`updated_at` are abstract clock ticks. -/
structure Scene where
  id : String
  project_id : String
  prompt : String
  code : Option String
  video_url : Option String
  thumbnail_url : Option String
  duration_seconds : ℚ
  order_index : Int
  status : SceneStatus
  error_message : Option String
  created_at : Nat
  updated_at : Nat
deriving DecidableEq

/-- A job record of `render_jobs` (`routers/render.py`). -/
structure Job where
  id : String
  scene_id : Option String
  project_id : Option String
  status : String
  progress : Nat
  output_url : Option String
  error_message : Option String
  created_at : Nat
deriving DecidableEq

/-- A project record of `projects_db` (`routers/projects.py`). -/
structure Project where
  id : String
  name : String
  description : Option String
  created_at : Nat
  updated_at : Nat
  scene_count : Nat
  scenes : List String
  audio_url : Option String
deriving DecidableEq

/-- One job-record write, or one subprocess-awaiting call, performed by a
background task, in source order. -/
inductive Ev where
  | progress : Nat → Ev
  | jobStatus : String → Ev
  | setOutput : String → Ev
  | setError : String → Ev
  | renderCall : String → Ev
  | combineCall : Ev
deriving DecidableEq

/-- Apply one job-record write (awaiting calls leave the record as is). -/
def applyEv (j : Job) : Ev → Job
  | .progress n => { j with progress := n }
  | .jobStatus s => { j with status := s }
  | .setOutput u => { j with output_url := some u }
  | .setError e => { j with error_message := some e }
  | .renderCall _ => j
  | .combineCall => j

def applyEvs (j : Job) (evs : List Ev) : Job := evs.foldl applyEv j

/-- The values written to the job's `progress` field, in order. -/
def progressWrites (evs : List Ev) : List Nat :=
  evs.filterMap fun e => match e with | .progress n => some n | _ => none

/-- The job-record states a concurrent reader can observe while the task
runs: the record as it stands at each suspension point (each awaited
subprocess call).  Between suspension points the event loop runs the
task's writes without yielding, so those intermediate assignments are not
observable. -/
def awaitStates (j : Job) : List Ev → List Job
  | [] => []
  | ev :: rest =>
      let j1 := applyEv j ev
      match ev with
      | .renderCall _ => j1 :: awaitStates j1 rest
      | .combineCall => j1 :: awaitStates j1 rest
      | _ => awaitStates j1 rest

/-- Observable job states over the task's lifetime: the freshly created
record, the record at each suspension point, and the final record. -/
def jobTrace (j : Job) (evs : List Ev) : List Job :=
  j :: (awaitStates j evs ++ [applyEvs j evs])

/-- The two terminal job statuses. -/
abbrev terminalStatus (s : String) : Prop := s = "completed" ∨ s = "failed"

/-- The filesystem as seen through `os.path.exists`. -/
structure FS where
  pathExists : String → Bool

/-- Exit codes and captured stderr of the two ffmpeg invocations of
`compile_project` (concat, audio mux): external subprocess outcomes. -/
structure ProcEnv where
  concatExit : Int
  concatStderr : String
  muxExit : Int
  muxStderr : String

/-- `os.path.basename` for the slash-separated locator strings the source
uses: the suffix after the last `/` (empty when the string ends in `/`). -/
def basename (s : String) : String :=
  String.mk (s.data.foldl (fun acc c => if c == '/' then [] else acc ++ [c]) [])

/-- `os.path.join(output_dir_abs, os.path.basename(video_url))`. -/
def resolveVideoPath (outDirAbs url : String) : String :=
  outDirAbs ++ "/" ++ basename url

/-- The ordered concat manifest built by `compile_project`
(`services/render_service.py` lines 150-165): one path per scene whose
`video_url` is truthy and resolves to an existing file in the output
store; other scenes are dropped without error. -/
def concatManifest (fs : FS) (outDirAbs : String) (scenes : List Scene) :
    List String :=
  scenes.filterMap fun sc =>
    match sc.video_url with
    | some u =>
        if u != "" && fs.pathExists (resolveVideoPath outDirAbs u) then
          some (resolveVideoPath outDirAbs u)
        else none
    | none => none

/-- `compile_project` of `services/render_service.py`.  `outDirAbs` and
`upDirAbs` are the absolute output and upload stores; the success value is
the final locator `/outputs/{project_id}_final.mp4`.  The audio branch
runs the mux subprocess without inspecting its exit code or stderr (the
source only does `await process.communicate()` there), so every audio arm
returns success. -/
def compile_project (fs : FS) (pe : ProcEnv) (outDirAbs upDirAbs : String)
    (scenes : List Scene) (project_id : String) (audio_url : Option String) :
    Except String String :=
  if scenes.isEmpty then .error "No scenes to compile"
  else
    let manifest := concatManifest fs outDirAbs scenes
    if manifest.isEmpty then .error "No rendered video files found to compile"
    else if pe.concatExit != 0 then
      .error ("Video concatenation failed: " ++ pe.concatStderr)
    else
      let finalUrl := "/outputs/" ++ project_id ++ "_final.mp4"
      match audio_url with
      | some au =>
          if au != "" then
            if fs.pathExists (upDirAbs ++ "/" ++ basename au) then
              -- mux subprocess runs here; pe.muxExit / pe.muxStderr unread
              .ok finalUrl
            else
              -- audio file absent: the concat output is copied unchanged
              .ok finalUrl
          else .ok finalUrl
      | none => .ok finalUrl

/-- External collaborators of the orchestrator: the outcome of
`render_scene` per (code, scene id), and the wall clock. -/
structure Env where
  render : Option String → String → Except String RenderResult
  now : Nat

/-- One iteration body of the render loop of
`process_render_all_and_combine`, restricted to the scene record: skip a
scene already `completed` with a truthy locator, otherwise render it and
update it, or mark it failed.  Returns the subprocess-await events and
either the updated scene or the failed scene with the error text.  On the
failure path the source sets only `status` and `error_message` (no
`updated_at`). -/
def renderSceneStep (env : Env) (sc : Scene) :
    List Ev × Except (Scene × String) Scene :=
  if sc.status == SceneStatus.completed && pyTruthy sc.video_url then
    ([], .ok sc)
  else
    match env.render sc.code sc.id with
    | .ok r =>
        ([Ev.renderCall sc.id],
          .ok { sc with
                  video_url := some r.video_url,
                  thumbnail_url := r.thumbnail_url,
                  duration_seconds := r.duration,
                  status := SceneStatus.completed,
                  updated_at := env.now })
    | .error e =>
        ([Ev.renderCall sc.id],
          .error ({ sc with status := SceneStatus.failed,
                            error_message := some e }, e))

/-- Result of the per-scene render loop: every scene processed, or a
failure at absolute index `i`, with the scene list as the loop left it. -/
inductive LoopRes where
  | allOk : List Scene → List Ev → LoopRes
  | failedAt : List Scene → Nat → String → List Ev → LoopRes

/-- The phase label written before scene `i` (0-based) of `total` starts. -/
def renderingLabel (i total : Nat) : String :=
  "Rendering scene " ++ toString (i + 1) ++ "/" ++ toString total

/-- The render loop of `process_render_all_and_combine`
(`routers/render.py` lines 204-224), starting at absolute index `i`.
Before each scene the task writes the phase label and
`int((i / total) * 80)` — in exact arithmetic, `i * 80 / total` in natural
floor division — to the job record. -/
def renderLoop (env : Env) (total : Nat) : Nat → List Scene → LoopRes
  | _, [] => .allOk [] []
  | i, sc :: rest =>
      let evs0 := [Ev.jobStatus (renderingLabel i total),
                   Ev.progress (i * 80 / total)]
      match renderSceneStep env sc with
      | (evsR, .ok sc') =>
          match renderLoop env total (i + 1) rest with
          | .allOk scs evs => .allOk (sc' :: scs) (evs0 ++ evsR ++ evs)
          | .failedAt scs j err evs =>
              .failedAt (sc' :: scs) j err (evs0 ++ evsR ++ evs)
      | (evsR, .error (sc', e)) => .failedAt (sc' :: rest) i e (evs0 ++ evsR)

/-- Phase 2 of `process_render_all_and_combine` (`routers/render.py` lines
226-242): write the combine phase label and progress 85, await the
combiner, and finalize the job record according to its outcome. -/
def combinePhase (fs : FS) (pe : ProcEnv) (outDirAbs upDirAbs : String)
    (job : Job) (scs : List Scene) (project_id : String)
    (audio_url : Option String) (evs : List Ev) : Job × List Scene × List Ev :=
  let evs1 := evs ++ [Ev.jobStatus "Combining scenes", Ev.progress 85,
                      Ev.combineCall]
  match compile_project fs pe outDirAbs upDirAbs scs project_id audio_url with
  | .ok url =>
      let evs' := evs1 ++ [Ev.progress 100, Ev.jobStatus "completed",
                           Ev.setOutput url]
      (applyEvs job evs', scs, evs')
  | .error e =>
      let evs' := evs1 ++ [Ev.jobStatus "failed", Ev.setError e]
      (applyEvs job evs', scs, evs')

/-- `process_render_all_and_combine` (`routers/render.py` lines 191-242):
the final job record, the final scene list, and the job events in source
order.  `scenes` is the registry lookup of the project's scene ids sorted
by `order_index`, as assembled at lines 197-199. -/
def processRenderAllAndCombine (env : Env) (fs : FS) (pe : ProcEnv)
    (outDirAbs upDirAbs : String) (job : Job) (scenes : List Scene)
    (project_id : String) (audio_url : Option String) :
    Job × List Scene × List Ev :=
  let total := scenes.length
  match renderLoop env total 0 scenes with
  | .failedAt scs i e evs =>
      let msg := "Failed to render scene " ++ toString (i + 1) ++ ": " ++ e
      let evs' := evs ++ [Ev.jobStatus "failed", Ev.setError msg]
      (applyEvs job evs', scs, evs')
  | .allOk scs evs =>
      combinePhase fs pe outDirAbs upDirAbs job scs project_id audio_url evs

/-- `process_render` (`routers/render.py` lines 34-62). -/
def processRender (env : Env) (job : Job) (scene : Scene) :
    Job × Scene × List Ev :=
  let evs0 := [Ev.jobStatus "rendering", Ev.progress 10,
               Ev.renderCall scene.id]
  match env.render scene.code scene.id with
  | .ok r =>
      let evs := evs0 ++ [Ev.progress 100, Ev.jobStatus "completed",
                          Ev.setOutput r.video_url]
      (applyEvs job evs,
        { scene with
            video_url := some r.video_url,
            thumbnail_url := r.thumbnail_url,
            duration_seconds := r.duration,
            status := SceneStatus.completed,
            updated_at := env.now }, evs)
  | .error e =>
      let evs := evs0 ++ [Ev.jobStatus "failed", Ev.setError e]
      (applyEvs job evs,
        { scene with status := SceneStatus.failed, error_message := some e,
                     updated_at := env.now }, evs)

/-- `process_export` (`routers/render.py` lines 114-142); `scenes` is the
ordered list the task assembles from the registries. -/
def processExport (fs : FS) (pe : ProcEnv) (outDirAbs upDirAbs : String)
    (job : Job) (scenes : List Scene) (project_id : String)
    (audio_url : Option String) : Job × List Ev :=
  let evs0 := [Ev.jobStatus "compiling", Ev.progress 10, Ev.combineCall]
  match compile_project fs pe outDirAbs upDirAbs scenes project_id audio_url with
  | .ok url =>
      let evs := evs0 ++ [Ev.progress 100, Ev.jobStatus "completed",
                          Ev.setOutput url]
      (applyEvs job evs, evs)
  | .error e =>
      let evs := evs0 ++ [Ev.jobStatus "failed", Ev.setError e]
      (applyEvs job evs, evs)

/-- Registry lookup (`sid in db` plus `db[sid]`). -/
def lookup {α : Type} (db : List (String × α)) (k : String) : Option α :=
  (db.find? fun kv => kv.1 == k).map Prod.snd

/-- The precondition loop of `export_project` (`routers/render.py` lines
157-164): the first scene id that resolves in the registry and is not yet
`completed`; ids that do not resolve are skipped. -/
def findUnrendered (scenes_db : List (String × Scene)) :
    List String → Option String
  | [] => none
  | sid :: rest =>
      match lookup scenes_db sid with
      | some sc =>
          if sc.status != SceneStatus.completed then some sid
          else findUnrendered scenes_db rest
      | none => findUnrendered scenes_db rest

/-- A freshly created job record, as every submission endpoint builds it:
status `pending`, progress `0`, no output, no error. -/
def mkJob (job_id : String) (scene_id project_id : Option String)
    (now : Nat) : Job :=
  { id := job_id, scene_id := scene_id, project_id := project_id,
    status := "pending", progress := 0, output_url := none,
    error_message := none, created_at := now }

/-- `export_project` (`routers/render.py` lines 144-188): the synchronous
submission path.  On success the new job record is stored in `render_jobs`
and returned with the background task still pending; on rejection an HTTP
error (status code, detail) is raised and no job record is created. -/
def export_project (projects_db : List (String × Project))
    (scenes_db : List (String × Scene)) (render_jobs : List (String × Job))
    (project_id job_id : String) (now : Nat) :
    Except (Nat × String) (List (String × Job) × Job) :=
  match lookup projects_db project_id with
  | none => .error (404, "Project not found")
  | some project =>
      if project.scenes.isEmpty then .error (400, "Project has no scenes")
      else
        match findUnrendered scenes_db project.scenes with
        | some sid => .error (400, "Scene " ++ sid ++ " is not rendered yet")
        | none =>
            let job := mkJob job_id none (some project_id) now
            .ok (render_jobs ++ [(job_id, job)], job)

/-! ### Auxiliary notions for the orchestrator proofs -/

/-- The events of a loop result. -/
def loopEvs : LoopRes → List Ev
  | .allOk _ evs => evs
  | .failedAt _ _ _ evs => evs

/-- The loop's guard at line 210: the scene still needs rendering. -/
def sceneNeedsRender (sc : Scene) : Bool :=
  !(sc.status == SceneStatus.completed && pyTruthy sc.video_url)

/-- The iteration at this scene does not raise: either the scene is
skipped, or the render service returns a result. -/
def stepSucceeds (env : Env) (sc : Scene) : Prop :=
  sceneNeedsRender sc = false ∨ ∃ r, env.render sc.code sc.id = .ok r

/-- The iteration at this scene raises with message `e`. -/
def stepFailsWith (env : Env) (sc : Scene) (e : String) : Prop :=
  sceneNeedsRender sc = true ∧ env.render sc.code sc.id = .error e

/-- The scene record an iteration leaves behind when it does not raise. -/
def stepResult (env : Env) (sc : Scene) : Scene :=
  match renderSceneStep env sc with
  | (_, .ok sc') => sc'
  | (_, .error (sc', _)) => sc'

lemma renderSceneStep_fst (env : Env) (sc : Scene) :
    (renderSceneStep env sc).1 = [] ∨
    (renderSceneStep env sc).1 = [Ev.renderCall sc.id] := by
  unfold renderSceneStep
  split
  · exact Or.inl rfl
  · cases env.render sc.code sc.id <;> exact Or.inr rfl

lemma renderSceneStep_ok (env : Env) (sc : Scene) (h : stepSucceeds env sc) :
    renderSceneStep env sc = ((renderSceneStep env sc).1, .ok (stepResult env sc)) ∧
    (stepResult env sc).status = SceneStatus.completed := by
  rcases h with h | ⟨r, hr⟩
  · have hc : (sc.status == SceneStatus.completed && pyTruthy sc.video_url) = true := by
      simpa [sceneNeedsRender] using h
    obtain ⟨h1, h2⟩ := (Bool.and_eq_true _ _).mp hc
    have hst : sc.status = SceneStatus.completed := by simpa using h1
    refine ⟨?_, ?_⟩ <;> simp [renderSceneStep, stepResult, h1, h2, hst]
  · by_cases hc : (sc.status == SceneStatus.completed && pyTruthy sc.video_url) = true
    · obtain ⟨h1, h2⟩ := (Bool.and_eq_true _ _).mp hc
      have hst : sc.status = SceneStatus.completed := by simpa using h1
      refine ⟨?_, ?_⟩ <;> simp [renderSceneStep, stepResult, h1, h2, hst]
    · refine ⟨?_, ?_⟩ <;> simp [renderSceneStep, stepResult, hc, hr]

/-- The scene record left behind by the loop's `except` branch at lines
222-223: status `failed`, the error recorded, everything else untouched. -/
def failScene (sc : Scene) (e : String) : Scene :=
  { sc with status := SceneStatus.failed, error_message := some e }

lemma renderSceneStep_fail (env : Env) (sc : Scene) (e : String)
    (h : stepFailsWith env sc e) :
    renderSceneStep env sc =
      ([Ev.renderCall sc.id], .error (failScene sc e, e)) := by
  rcases h with ⟨hneed, hr⟩
  have hc : ¬ (sc.status == SceneStatus.completed && pyTruthy sc.video_url) = true := by
    simp [sceneNeedsRender] at hneed
    simp only [Bool.and_eq_true, beq_iff_eq, not_and]
    intro h1
    rcases hneed with h | h
    · exact absurd h1 h
    · simp [h]
  simp [renderSceneStep, failScene, hc, hr]

lemma progressWrites_append (l1 l2 : List Ev) :
    progressWrites (l1 ++ l2) = progressWrites l1 ++ progressWrites l2 :=
  List.filterMap_append l1 l2 _

lemma renderSceneStep_fst_progress (env : Env) (sc : Scene) :
    progressWrites (renderSceneStep env sc).1 = [] := by
  rcases renderSceneStep_fst env sc with h | h <;> simp [h, progressWrites]

lemma renderSceneStep_fst_no_combine (env : Env) (sc : Scene) :
    Ev.combineCall ∉ (renderSceneStep env sc).1 := by
  rcases renderSceneStep_fst env sc with h | h <;> simp [h]

lemma renderLoop_no_combine (env : Env) (total : Nat) :
    ∀ (scs : List Scene) (i : Nat),
      Ev.combineCall ∉ loopEvs (renderLoop env total i scs) := by
  intro scs
  induction scs with
  | nil => intro i; simp [renderLoop, loopEvs]
  | cons sc rest ih =>
      intro i
      have hstep := renderSceneStep_fst_no_combine env sc
      simp only [renderLoop]
      rcases hs : renderSceneStep env sc with ⟨evsR, res⟩
      rw [hs] at hstep
      rcases res with ⟨sc', e⟩ | sc'
      · simp [loopEvs, hstep]
      · rcases hrec : renderLoop env total (i + 1) rest with ⟨scs0, evs0⟩ | ⟨scs0, jj, err, evs0⟩ <;>
          have hih := ih (i + 1) <;> rw [hrec] at hih <;>
          simp [loopEvs] at hih ⊢ <;> simp [hstep, hih]

lemma range_map_shift (i m total : Nat) :
    (List.range (m + 1)).map (fun j => (i + j) * 80 / total) =
      (i * 80 / total) :: (List.range m).map (fun j => (i + 1 + j) * 80 / total) := by
  rw [List.range_succ_eq_map, List.map_cons, List.map_map]
  refine congrArg₂ _ (by simp) ?_
  refine List.map_congr_left fun a _ => ?_
  have hh : i + Nat.succ a = i + 1 + a := by omega
  simp [Function.comp, hh]

lemma renderLoop_progress_shape (env : Env) (total : Nat) :
    ∀ (scs : List Scene) (i : Nat), ∃ m, m ≤ scs.length ∧
      progressWrites (loopEvs (renderLoop env total i scs)) =
        (List.range m).map (fun j => (i + j) * 80 / total) := by
  intro scs
  induction scs with
  | nil =>
      intro i
      exact ⟨0, by simp, by simp [renderLoop, loopEvs, progressWrites]⟩
  | cons sc rest ih =>
      intro i
      have hR : progressWrites (renderSceneStep env sc).1 = [] :=
        renderSceneStep_fst_progress env sc
      simp only [renderLoop]
      rcases hs : renderSceneStep env sc with ⟨evsR, res⟩
      rw [hs] at hR
      replace hR : progressWrites evsR = [] := by simpa using hR
      rcases res with ⟨sc', e⟩ | sc'
      · refine ⟨1, by simp, ?_⟩
        simp only [loopEvs, progressWrites_append, hR]
        simp [progressWrites, List.range_succ]
      · rcases ih (i + 1) with ⟨m, hm, hw⟩
        refine ⟨m + 1, by simpa using Nat.succ_le_succ hm, ?_⟩
        rcases hrec : renderLoop env total (i + 1) rest with ⟨scs0, evs0⟩ | ⟨scs0, jj, err, evs0⟩ <;>
          rw [hrec] at hw <;>
          simp only [loopEvs] at hw ⊢ <;>
          rw [range_map_shift] <;>
          simp only [progressWrites_append, hR, hw] <;>
          simp [progressWrites]

lemma renderLoop_allOk_of (env : Env) (total : Nat) :
    ∀ (scs : List Scene) (i : Nat),
      (∀ j (hj : j < scs.length), stepSucceeds env (scs.get ⟨j, hj⟩)) →
      ∃ evs,
        renderLoop env total i scs = .allOk (scs.map (stepResult env)) evs ∧
        progressWrites evs =
          (List.range scs.length).map (fun j => (i + j) * 80 / total) := by
  intro scs
  induction scs with
  | nil => intro i _; exact ⟨[], by simp [renderLoop], by simp [progressWrites]⟩
  | cons sc rest ih =>
      intro i h
      have h0 : stepSucceeds env sc := h 0 (by simp)
      obtain ⟨hstep, _⟩ := renderSceneStep_ok env sc h0
      obtain ⟨evs, hrec, hw⟩ := ih (i + 1) (fun j hj => by
        have := h (j + 1) (by simpa using Nat.succ_lt_succ hj)
        simpa using this)
      have hR : progressWrites (renderSceneStep env sc).1 = [] :=
        renderSceneStep_fst_progress env sc
      refine ⟨[Ev.jobStatus (renderingLabel i total),
               Ev.progress (i * 80 / total)] ++ (renderSceneStep env sc).1 ++ evs,
              ?_, ?_⟩
      · conv_lhs => rw [renderLoop, hstep, hrec]
        simp
      · rw [List.length_cons, range_map_shift]
        simp only [progressWrites_append, hR, hw]
        simp [progressWrites]

lemma renderLoop_fail (env : Env) (total : Nat) :
    ∀ (scs : List Scene) (i k : Nat) (e : String) (hk : k < scs.length),
      (∀ j (hj : j < k), stepSucceeds env (scs.get ⟨j, Nat.lt_trans hj hk⟩)) →
      stepFailsWith env (scs.get ⟨k, hk⟩) e →
      ∃ pre evs,
        renderLoop env total i scs =
          .failedAt
            (pre ++ (failScene (scs.get ⟨k, hk⟩) e :: scs.drop (k + 1)))
            (i + k) e evs ∧
        pre.length = k ∧ (∀ x ∈ pre, x.status = SceneStatus.completed) ∧
        progressWrites evs =
          (List.range (k + 1)).map (fun j => (i + j) * 80 / total) := by
  intro scs
  induction scs with
  | nil => intro i k e hk; exact absurd hk (by simp)
  | cons sc rest ih =>
      intro i k e hk hpre hfail
      cases k with
      | zero =>
          have hstep := renderSceneStep_fail env sc e (by simpa using hfail)
          refine ⟨[], [Ev.jobStatus (renderingLabel i total),
                       Ev.progress (i * 80 / total), Ev.renderCall sc.id],
                  ?_, rfl, by simp, by simp [progressWrites, List.range_succ]⟩
          conv_lhs => rw [renderLoop, hstep]
          simp
      | succ k =>
          have h0 : stepSucceeds env sc := hpre 0 (Nat.succ_pos k)
          obtain ⟨hstep, _⟩ := renderSceneStep_ok env sc h0
          have hk' : k < rest.length := by simpa using Nat.lt_of_succ_lt_succ hk
          obtain ⟨pre, evs, hloop, hlen, hcomp, hw⟩ :=
            ih (i + 1) k e hk'
              (fun j hj => by
                have := hpre (j + 1) (Nat.succ_lt_succ hj)
                simpa using this)
              (by simpa using hfail)
          have hR : progressWrites (renderSceneStep env sc).1 = [] :=
            renderSceneStep_fst_progress env sc
          refine ⟨stepResult env sc :: pre,
                  [Ev.jobStatus (renderingLabel i total),
                   Ev.progress (i * 80 / total)] ++ (renderSceneStep env sc).1 ++ evs,
                  ?_, by simp [hlen], ?_, ?_⟩
          · conv_lhs => rw [renderLoop, hstep, hloop]
            have hidx : i + 1 + k = i + (k + 1) := by omega
            simp [hidx]
          · intro x hx
            rcases List.mem_cons.mp hx with h | h
            · subst h; exact (renderSceneStep_ok env sc h0).2
            · exact hcomp x h
          · rw [range_map_shift]
            simp only [progressWrites_append, hR, hw]
            simp [progressWrites]

lemma applyEvs_append (j : Job) (l1 l2 : List Ev) :
    applyEvs j (l1 ++ l2) = applyEvs (applyEvs j l1) l2 :=
  List.foldl_append _ _ _ _

lemma awaitStates_append (j : Job) (l1 l2 : List Ev) :
    awaitStates j (l1 ++ l2) =
      awaitStates j l1 ++ awaitStates (applyEvs j l1) l2 := by
  induction l1 generalizing j with
  | nil => simp [awaitStates, applyEvs]
  | cons ev rest ih =>
      cases ev <;> simp [awaitStates, applyEvs, List.foldl_cons, ih]

lemma div80_le (j total : Nat) (h : j ≤ total) : j * 80 / total ≤ 80 := by
  cases total with
  | zero =>
      have hj : j = 0 := Nat.le_zero.mp h
      simp [hj]
  | succ t =>
      calc j * 80 / (t + 1) ≤ (t + 1) * 80 / (t + 1) :=
            Nat.div_le_div_right (Nat.mul_le_mul_right 80 h)
        _ = 80 := Nat.mul_div_cancel_left 80 (Nat.succ_pos t)

lemma chainProgressMap (i m total : Nat) :
    List.Chain' (· ≤ ·) ((List.range m).map fun j => (i + j) * 80 / total) := by
  rw [List.chain'_map]
  cases m with
  | zero => simp
  | succ n =>
      rw [List.chain'_range_succ]
      intro k _
      exact Nat.div_le_div_right (Nat.mul_le_mul_right 80 (by omega))

lemma mapProg_le (i m total : Nat) (hm : i + m ≤ total) :
    ∀ x ∈ (List.range m).map (fun j => (i + j) * 80 / total), x ≤ 80 := by
  intro x hx
  obtain ⟨a, ha, rfl⟩ := List.mem_map.mp hx
  have hia : i + a ≤ total := by
    have := List.mem_range.mp ha
    omega
  exact div80_le _ _ hia

lemma renderingLabel_not_terminal (a b : Nat) :
    ¬ terminalStatus (renderingLabel a b) := by
  intro h
  have hl : 16 ≤ (renderingLabel a b).length := by
    simp only [renderingLabel, String.length_append]
    have h16 : "Rendering scene ".length = 16 := by decide
    omega
  rcases h with h | h <;> rw [h] at hl <;> exact absurd hl (by decide)

lemma frozen_after_terminal (A : List Job) (f : Job)
    (hA : ∀ x ∈ A, ¬ terminalStatus x.status) :
    ∀ p q (hp : p < (A ++ [f]).length) (hq : q < (A ++ [f]).length), p ≤ q →
      terminalStatus ((A ++ [f]).get ⟨p, hp⟩).status →
      (A ++ [f]).get ⟨q, hq⟩ = (A ++ [f]).get ⟨p, hp⟩ := by
  intro p q hp hq hpq hterm
  have hlen : (A ++ [f]).length = A.length + 1 := by simp
  by_cases hpA : p < A.length
  · exfalso
    have hget : (A ++ [f]).get ⟨p, hp⟩ = A.get ⟨p, hpA⟩ := by
      simp [List.get_eq_getElem, List.getElem_append_left hpA]
    rw [hget] at hterm
    exact hA _ (A.get_mem _ _) hterm
  · have hq' := hq
    rw [hlen] at hq'
    have hqe : q = p := by omega
    subst hqe
    rfl

lemma renderLoop_await_labels (env : Env) (total : Nat) :
    ∀ (scs : List Scene) (i : Nat) (j : Job),
      ∀ x ∈ awaitStates j (loopEvs (renderLoop env total i scs)),
        ∃ a, x.status = renderingLabel a total := by
  intro scs
  induction scs with
  | nil => intro i j x hx; simp [renderLoop, loopEvs, awaitStates] at hx
  | cons sc rest ih =>
      intro i j x hx
      have hfst := renderSceneStep_fst env sc
      rcases hs : renderSceneStep env sc with ⟨evsR, res⟩
      rw [hs] at hfst
      simp only [renderLoop] at hx
      rw [hs] at hx
      rcases res with ⟨sc', e⟩ | sc'
      · rcases hfst with h | h <;> subst h <;>
          simp [loopEvs, awaitStates, applyEv] at hx
        exact ⟨i, by rw [hx]⟩
      · have hxx : x ∈ awaitStates j
            (Ev.jobStatus (renderingLabel i total) ::
             Ev.progress (i * 80 / total) ::
              (evsR ++ loopEvs (renderLoop env total (i + 1) rest))) := by
          rcases hrec : renderLoop env total (i + 1) rest with ⟨scs0, evs0⟩ | ⟨scs0, jj, err, evs0⟩ <;>
            rw [hrec] at hx <;> simpa [loopEvs] using hx
        have hsteps : awaitStates j
            (Ev.jobStatus (renderingLabel i total) ::
             Ev.progress (i * 80 / total) ::
              (evsR ++ loopEvs (renderLoop env total (i + 1) rest))) =
            awaitStates { j with status := renderingLabel i total,
                                 progress := i * 80 / total }
              (evsR ++ loopEvs (renderLoop env total (i + 1) rest)) := by
          simp [awaitStates, applyEv]
        rw [hsteps, awaitStates_append] at hxx
        rcases List.mem_append.mp hxx with hy | hy
        · rcases hfst with h | h <;> subst h <;>
            simp [awaitStates, applyEv] at hy
          exact ⟨i, by rw [hy]⟩
        · exact ih (i + 1) _ x hy

lemma append_ne_of_head {p q : String} (c d : Char) (cs ds : List Char)
    (hp : p.data = c :: cs) (hq : q.data = d :: ds) (hcd : c ≠ d) (s : String) :
    p ++ s ≠ q := by
  intro h
  have hd := congrArg String.data h
  rw [String.data_append, hp, hq] at hd
  rw [List.cons_append] at hd
  exact hcd (List.cons.injEq .. ▸ hd).1

lemma concatManifest_eq_filter (fs : FS) (outD : String) :
    ∀ (scenes : List Scene), (∀ sc ∈ scenes, sc.video_url ≠ some "") →
      concatManifest fs outD scenes =
        (scenes.filter fun sc =>
            sc.video_url.isSome &&
              fs.pathExists (resolveVideoPath outD (sc.video_url.getD ""))).map
          (fun sc => resolveVideoPath outD (sc.video_url.getD "")) := by
  intro scenes
  induction scenes with
  | nil => intro _; rfl
  | cons sc rest ih =>
      intro hwf
      have hsc := hwf sc (List.mem_cons_self sc rest)
      have hih := ih fun x hx => hwf x (List.mem_cons_of_mem _ hx)
      simp only [concatManifest] at hih ⊢
      rcases hv : sc.video_url with _ | u
      · simp only [List.filterMap_cons, List.filter_cons, hv] at hih ⊢
        simp at hih ⊢
        exact hih
      · have hu : u ≠ "" := fun h => hsc (by rw [hv, h])
        by_cases hex : fs.pathExists (resolveVideoPath outD u) = true
        · simp only [List.filterMap_cons, List.filter_cons, hv] at hih ⊢
          simp [hu, hex, hv] at hih ⊢
          exact hih
        · simp only [List.filterMap_cons, List.filter_cons, hv] at hih ⊢
          simp [hu, hex, hv] at hih ⊢
          exact hih

lemma compile_project_ok (fs : FS) (pe : ProcEnv) (outD upD : String)
    (scenes : List Scene) (pid : String) (audio : Option String)
    (hsc : scenes.isEmpty = false)
    (hman : (concatManifest fs outD scenes).isEmpty = false)
    (hexit : pe.concatExit = 0) :
    compile_project fs pe outD upD scenes pid audio =
      .ok ("/outputs/" ++ pid ++ "_final.mp4") := by
  simp only [compile_project, hsc, hman, hexit]
  simp only [Bool.false_eq_true, if_false, bne_self_eq_false]
  rcases audio with _ | a
  · rfl
  · by_cases ha : (a != "") = true
    · by_cases hex : fs.pathExists (upD ++ "/" ++ basename a) = true
      · simp [ha, hex]
      · simp [ha, hex]
    · simp [ha]

/-! ### Claim theorems -/

/-- C1: in a render-all-and-combine job whose render of scene `k` (0-based)
fails after every earlier scene's iteration succeeded, the job ends
`failed` with an error message naming scene `k+1`, the failing scene is
marked `failed` with its error recorded, every scene before it ends
`completed`, every scene after it is left exactly in its prior state, and
the combiner is never invoked. -/
theorem C1_partial_failure_aborts_job (env : Env) (fs : FS) (pe : ProcEnv)
    (outD upD : String) (job : Job) (scenes : List Scene)
    (pid : String) (audio : Option String) (k : Nat) (e : String)
    (hk : k < scenes.length)
    (hpre : ∀ j (hj : j < k), stepSucceeds env (scenes.get ⟨j, Nat.lt_trans hj hk⟩))
    (hfail : stepFailsWith env (scenes.get ⟨k, hk⟩) e) :
    (processRenderAllAndCombine env fs pe outD upD job scenes pid audio).1.status = "failed" ∧
    (processRenderAllAndCombine env fs pe outD upD job scenes pid audio).1.error_message =
      some ("Failed to render scene " ++ toString (k + 1) ++ ": " ++ e) ∧
    (∀ j, j < k →
      ((processRenderAllAndCombine env fs pe outD upD job scenes pid audio).2.1[j]?).map
          Scene.status = some SceneStatus.completed) ∧
    (processRenderAllAndCombine env fs pe outD upD job scenes pid audio).2.1[k]? =
      some (failScene (scenes.get ⟨k, hk⟩) e) ∧
    (∀ j, k < j →
      (processRenderAllAndCombine env fs pe outD upD job scenes pid audio).2.1[j]? =
        scenes[j]?) ∧
    Ev.combineCall ∉ (processRenderAllAndCombine env fs pe outD upD job scenes pid audio).2.2 := by
  obtain ⟨pre, evs, hloop, hlen, hcomp, hw⟩ :=
    renderLoop_fail env scenes.length scenes 0 k e hk hpre hfail
  have hmsg : 0 + k + 1 = k + 1 := by omega
  have hout : processRenderAllAndCombine env fs pe outD upD job scenes pid audio =
      (applyEvs job (evs ++ [Ev.jobStatus "failed",
         Ev.setError ("Failed to render scene " ++ toString (0 + k + 1) ++ ": " ++ e)]),
       pre ++ (failScene (scenes.get ⟨k, hk⟩) e :: scenes.drop (k + 1)),
       evs ++ [Ev.jobStatus "failed",
         Ev.setError ("Failed to render scene " ++ toString (0 + k + 1) ++ ": " ++ e)]) := by
    simp only [processRenderAllAndCombine]
    rw [hloop]
  rw [hmsg] at hout
  refine ⟨?_, ?_, ?_, ?_, ?_, ?_⟩
  · rw [hout]
    simp [applyEvs_append, applyEvs, applyEv]
  · rw [hout]
    simp [applyEvs_append, applyEvs, applyEv]
  · intro j hj
    rw [hout]
    have hjp : j < pre.length := by omega
    rw [List.getElem?_append, if_pos hjp]
    rw [List.getElem?_eq_getElem hjp]
    exact congrArg some (hcomp _ (List.getElem_mem hjp))
  · rw [hout]
    rw [List.getElem?_append_right (by omega)]
    have h0 : k - pre.length = 0 := by omega
    rw [h0]
    exact List.getElem?_cons_zero
  · intro j hj
    rw [hout]
    rw [List.getElem?_append_right (by omega)]
    have h1 : j - pre.length = (j - k - 1) + 1 := by omega
    rw [h1, List.getElem?_cons_succ, List.getElem?_drop]
    have h2 : k + 1 + (j - k - 1) = j := by omega
    rw [h2]
  · rw [hout]
    have hnc := renderLoop_no_combine env scenes.length scenes 0
    rw [hloop] at hnc
    simp only [loopEvs] at hnc
    simp [List.mem_append, hnc]

/-- C2: for every non-empty scene list without degenerate empty-string
locators, the concat manifest selects exactly — and in the given order —
the scenes whose video locator is set and resolves to a file present in
the output store, dropping the others without error; `compile_project`
fails with the no-artifacts error precisely when that manifest is empty;
and when some artifact survives the filter and the concat subprocess exits
0, combine succeeds with the final locator. -/
theorem C2_manifest_and_no_artifacts (fs : FS) (pe : ProcEnv)
    (outD upD : String) (scenes : List Scene) (pid : String)
    (audio : Option String) (hne : scenes ≠ [])
    (hwf : ∀ sc ∈ scenes, sc.video_url ≠ some "") :
    concatManifest fs outD scenes =
      (scenes.filter fun sc =>
          sc.video_url.isSome &&
            fs.pathExists (resolveVideoPath outD (sc.video_url.getD ""))).map
        (fun sc => resolveVideoPath outD (sc.video_url.getD "")) ∧
    (compile_project fs pe outD upD scenes pid audio =
        .error "No rendered video files found to compile" ↔
      concatManifest fs outD scenes = []) ∧
    (concatManifest fs outD scenes ≠ [] → pe.concatExit = 0 →
      compile_project fs pe outD upD scenes pid audio =
        .ok ("/outputs/" ++ pid ++ "_final.mp4")) := by
  have hie : scenes.isEmpty = false := by
    simpa [List.isEmpty_eq_false] using hne
  refine ⟨concatManifest_eq_filter fs outD scenes hwf, ⟨?_, ?_⟩, ?_⟩
  · intro h
    by_contra hman
    have hmie : (concatManifest fs outD scenes).isEmpty = false := by
      simpa [List.isEmpty_eq_false] using hman
    by_cases hex : pe.concatExit = 0
    · rw [compile_project_ok fs pe outD upD scenes pid audio hie hmie hex] at h
      exact Except.noConfusion h
    · have hc : compile_project fs pe outD upD scenes pid audio =
          .error ("Video concatenation failed: " ++ pe.concatStderr) := by
        simp only [compile_project, hie, hmie]
        simp [hex]
      rw [hc] at h
      have heq := Except.error.inj h
      exact append_ne_of_head 'V' 'N' _ _ rfl rfl (by decide) pe.concatStderr heq
  · intro h
    have hmie : (concatManifest fs outD scenes).isEmpty = true := by simp [h]
    simp [compile_project, hie, hmie]
  · intro hman hex
    have hmie : (concatManifest fs outD scenes).isEmpty = false := by
      simpa [List.isEmpty_eq_false] using hman
    exact compile_project_ok fs pe outD upD scenes pid audio hie hmie hex

/-- A scene with a given id and video locator, for the concrete witnesses. -/
def wScene (nm : String) (vu : Option String) : Scene :=
  { id := nm, project_id := "proj", prompt := "prompt", code := some "code",
    video_url := vu, thumbnail_url := none, duration_seconds := 0,
    order_index := 0, status := SceneStatus.completed, error_message := none,
    created_at := 0, updated_at := 0 }

/-- A store holding only `OUT/a.mp4` and the upload `UP/a.mp3`. -/
def wFS : FS := { pathExists := fun p => p == "OUT/a.mp4" || p == "UP/a.mp3" }

/-- Subprocess environment: concat succeeds, mux fails loudly. -/
def wPE : ProcEnv :=
  { concatExit := 0, concatStderr := "", muxExit := 1, muxStderr := "mux blew up" }

/-- Witness for C2: one existing artifact (`a.mp4`) and one missing
(`b.mp4`): combine succeeds using only the existing one. -/
theorem C2_manifest_and_no_artifacts_witness :
    compile_project wFS wPE "OUT" "UP"
        [wScene "a" (some "/outputs/a.mp4"), wScene "b" (some "/outputs/b.mp4")]
        "proj" none = .ok "/outputs/proj_final.mp4" ∧
    concatManifest wFS "OUT"
        [wScene "a" (some "/outputs/a.mp4"), wScene "b" (some "/outputs/b.mp4")] =
      ["OUT/a.mp4"] := by
  have h := C2_manifest_and_no_artifacts wFS wPE "OUT" "UP"
      [wScene "a" (some "/outputs/a.mp4"), wScene "b" (some "/outputs/b.mp4")]
      "proj" none (by decide) (by decide)
  exact ⟨h.2.2 (by decide) rfl, by decide⟩

/-- C10: `compile_project` never inspects the audio-mux subprocess's exit
code or stderr: its result is invariant under them, and with a successful
concat it returns success even when the mux subprocess fails — whereas a
failing concat step fails the combine with the concat stderr. -/
theorem C10_mux_exit_ignored (fs : FS) (outD upD : String)
    (scenes : List Scene) (pid : String) (audio : Option String) :
    (∀ ce cs m1 s1 m2 s2,
      compile_project fs ⟨ce, cs, m1, s1⟩ outD upD scenes pid audio =
        compile_project fs ⟨ce, cs, m2, s2⟩ outD upD scenes pid audio) ∧
    (∀ pe : ProcEnv, scenes.isEmpty = false →
      (concatManifest fs outD scenes).isEmpty = false → pe.concatExit = 0 →
      compile_project fs pe outD upD scenes pid audio =
        .ok ("/outputs/" ++ pid ++ "_final.mp4")) ∧
    (∀ pe : ProcEnv, scenes.isEmpty = false →
      (concatManifest fs outD scenes).isEmpty = false → pe.concatExit ≠ 0 →
      compile_project fs pe outD upD scenes pid audio =
        .error ("Video concatenation failed: " ++ pe.concatStderr)) := by
  refine ⟨fun ce cs m1 s1 m2 s2 => rfl, ?_, ?_⟩
  · intro pe h1 h2 h3
    exact compile_project_ok fs pe outD upD scenes pid audio h1 h2 h3
  · intro pe h1 h2 h3
    simp only [compile_project, h1, h2]
    simp [h3]

/-- Witness for C10: concat succeeds, the supplied audio file exists, the
mux subprocess exits 1 with noisy stderr — combine still returns success. -/
theorem C10_mux_exit_ignored_witness :
    compile_project wFS wPE "OUT" "UP" [wScene "a" (some "/outputs/a.mp4")]
        "proj" (some "/uploads/a.mp3") = .ok "/outputs/proj_final.mp4" ∧
    wFS.pathExists ("UP/" ++ basename "/uploads/a.mp3") = true ∧
    wPE.muxExit = 1 := by
  refine ⟨?_, by decide, rfl⟩
  exact (C10_mux_exit_ignored wFS "OUT" "UP" [wScene "a" (some "/outputs/a.mp4")]
      "proj" (some "/uploads/a.mp3")).2.1 wPE rfl (by decide) rfl

/-- C3: the validator's checks are fail-fast in the order emptiness,
syntax, dangerous-pattern scan, structure: blank or whitespace-only input
is rejected as empty for every parser oracle (the later checks are never
consulted), and non-blank input that fails to parse is rejected with the
syntax message carrying the line number and parser message — even when the
input also contains denylisted tokens or lacks the required structure. -/
theorem C3_validate_fail_fast :
    (∀ (parse : PyParse) (code : String), pyBlank code = true →
      validate_manim_code parse code = (false, "Code is empty")) ∧
    (∀ (parse : PyParse) (code : String) (ln : Nat) (msg : String),
      pyBlank code = false → parse code = .error (ln, msg) →
      validate_manim_code parse code =
        (false, "Syntax error at line " ++ toString ln ++ ": " ++ msg)) := by
  constructor
  · intro parse code h
    simp [validate_manim_code, h]
  · intro parse code ln msg hb hp
    simp [validate_manim_code, hb, check_syntax', hp]

/-- A parser oracle that rejects every input at line 1, standing in for
`ast.parse` on syntactically invalid text. -/
def badParse : PyParse := fun _ => .error (1, "invalid character")

/-- A parser oracle that accepts every input with an empty module,
standing in for `ast.parse` on syntactically valid text. -/
def okParse : PyParse := fun _ => .ok ⟨[]⟩

/-- Witness for C3: a whitespace-only string is rejected as empty, and a
string containing the denylisted `eval(` that fails to parse is rejected
with the syntax message, not the dangerous-pattern message. -/
theorem C3_validate_fail_fast_witness :
    validate_manim_code badParse " \n\t" = (false, "Code is empty") ∧
    validate_manim_code badParse "eval(x" =
      (false, "Syntax error at line 1: invalid character") := by
  constructor
  · exact C3_validate_fail_fast.1 badParse " \n\t" (by decide)
  · exact C3_validate_fail_fast.2 badParse "eval(x" 1 "invalid character"
      (by decide) rfl

/-- C4: on non-blank code that parses, when at least one denylist pattern
matches the raw text, validation rejects with the dangerous-pattern
message listing exactly the matching patterns — every matching denylist
pattern is in the list, and everything in the list is a matching denylist
pattern — regardless of the parsed structure. -/
theorem C4_unsafe_lists_all_matches (parse : PyParse) (code : String)
    (m : PyModule) (hb : pyBlank code = false) (hp : parse code = .ok m)
    (hne : (check_dangerous_patterns code).2 ≠ []) :
    validate_manim_code parse code =
      (false, "Code contains dangerous patterns: " ++
        String.intercalate ", " (check_dangerous_patterns code).2) ∧
    (∀ p ∈ DANGEROUS_PATTERNS, matchesPattern p.2 code = true →
      p.1 ∈ (check_dangerous_patterns code).2) ∧
    (∀ s ∈ (check_dangerous_patterns code).2,
      ∃ p ∈ DANGEROUS_PATTERNS, p.1 = s ∧ matchesPattern p.2 code = true) := by
  refine ⟨?_, ?_, ?_⟩
  · have hnf : ((check_dangerous_patterns code).2).isEmpty = false := by
      simpa [List.isEmpty_eq_false] using hne
    have hfst : (check_dangerous_patterns code).1 = false := by
      rw [show (check_dangerous_patterns code).1 =
            ((check_dangerous_patterns code).2).isEmpty from rfl, hnf]
    simp only [validate_manim_code, hb, check_syntax', hp]
    simp [hfst]
  · intro p hmem hmatch
    exact List.mem_map_of_mem Prod.fst (List.mem_filter.mpr ⟨hmem, hmatch⟩)
  · intro s hs
    obtain ⟨q, hq, rfl⟩ := List.mem_map.mp hs
    have hqf := List.mem_filter.mp hq
    exact ⟨q, hqf.1, rfl, hqf.2⟩

/-- Witness for C4 at concrete code matching two denylist patterns
(`\bos\.` and `\bimport\s+os\b`): both appear in the rejection message's
list. -/
theorem C4_unsafe_lists_all_matches_witness :
    validate_manim_code okParse "import os\nprint(os.getcwd())" =
      (false, "Code contains dangerous patterns: " ++
        String.intercalate ", "
          (check_dangerous_patterns "import os\nprint(os.getcwd())").2) ∧
    "\\bos\\." ∈ (check_dangerous_patterns "import os\nprint(os.getcwd())").2 ∧
    "\\bimport\\s+os\\b" ∈
      (check_dangerous_patterns "import os\nprint(os.getcwd())").2 := by
  have h := C4_unsafe_lists_all_matches okParse "import os\nprint(os.getcwd())"
      ⟨[]⟩ (by decide) rfl (by decide)
  refine ⟨h.1, ?_, ?_⟩
  · exact h.2.1 ("\\bos\\.", RTok.wordB :: lits "os.") (by decide) (by decide)
  · exact h.2.1 ("\\bimport\\s+os\\b",
      RTok.wordB :: lits "import" ++ [RTok.wsPlus] ++ lits "os" ++ [RTok.wordB])
      (by decide) (by decide)

lemma processRAC_allOk (env : Env) (fs : FS) (pe : ProcEnv)
    (outD upD : String) (job : Job) (scenes : List Scene) (pid : String)
    (audio : Option String) (scs : List Scene) (evs : List Ev)
    (hloop : renderLoop env scenes.length 0 scenes = .allOk scs evs) :
    processRenderAllAndCombine env fs pe outD upD job scenes pid audio =
      combinePhase fs pe outD upD job scs pid audio evs := by
  simp only [processRenderAllAndCombine]
  rw [hloop]

lemma combinePhase_ok (fs : FS) (pe : ProcEnv) (outD upD : String)
    (job : Job) (scs : List Scene) (pid : String) (audio : Option String)
    (evs : List Ev) (url : String)
    (hc : compile_project fs pe outD upD scs pid audio = .ok url) :
    combinePhase fs pe outD upD job scs pid audio evs =
      (applyEvs job
        ((evs ++ [Ev.jobStatus "Combining scenes", Ev.progress 85,
                  Ev.combineCall]) ++
          [Ev.progress 100, Ev.jobStatus "completed", Ev.setOutput url]),
       scs,
       (evs ++ [Ev.jobStatus "Combining scenes", Ev.progress 85,
                Ev.combineCall]) ++
         [Ev.progress 100, Ev.jobStatus "completed", Ev.setOutput url]) := by
  simp only [combinePhase]
  rw [hc]

lemma combinePhase_error (fs : FS) (pe : ProcEnv) (outD upD : String)
    (job : Job) (scs : List Scene) (pid : String) (audio : Option String)
    (evs : List Ev) (e : String)
    (hc : compile_project fs pe outD upD scs pid audio = .error e) :
    combinePhase fs pe outD upD job scs pid audio evs =
      (applyEvs job
        ((evs ++ [Ev.jobStatus "Combining scenes", Ev.progress 85,
                  Ev.combineCall]) ++
          [Ev.jobStatus "failed", Ev.setError e]),
       scs,
       (evs ++ [Ev.jobStatus "Combining scenes", Ev.progress 85,
                Ev.combineCall]) ++
         [Ev.jobStatus "failed", Ev.setError e]) := by
  simp only [combinePhase]
  rw [hc]

/-- C6: in a render-all-and-combine job in which every scene iteration
succeeds and the combiner succeeds, the progress values written are, in
order, exactly `i * 80 / total` before scene `i` (0-based) starts — the
exact-arithmetic value of the source's `int((i / total) * 80)` — then 85
on entering the combine phase, then 100 on success. -/
theorem C6_progress_schedule (env : Env) (fs : FS) (pe : ProcEnv)
    (outD upD : String) (job : Job) (scenes : List Scene)
    (pid : String) (audio : Option String)
    (hall : ∀ j (hj : j < scenes.length), stepSucceeds env (scenes.get ⟨j, hj⟩))
    (url : String)
    (hcompile : compile_project fs pe outD upD (scenes.map (stepResult env))
        pid audio = .ok url) :
    progressWrites
        (processRenderAllAndCombine env fs pe outD upD job scenes pid audio).2.2 =
      (List.range scenes.length).map (fun i => i * 80 / scenes.length) ++
        [85, 100] := by
  obtain ⟨evs, hloop, hw⟩ := renderLoop_allOk_of env scenes.length scenes 0 hall
  rw [processRAC_allOk env fs pe outD upD job scenes pid audio _ _ hloop,
      combinePhase_ok fs pe outD upD job _ pid audio evs url hcompile]
  rw [progressWrites_append, progressWrites_append, hw]
  simp [progressWrites]

/-- The render-service oracle that succeeds on every scene. -/
def okEnv : Env :=
  { render := fun _ sid =>
      .ok { video_url := "/outputs/" ++ sid ++ ".mp4",
            thumbnail_url := none, duration := 5 },
    now := 1 }

/-- A minimal pending scene with code, for the orchestrator witnesses. -/
def demoScene (n : Nat) : Scene :=
  { id := "s" ++ toString n, project_id := "p", prompt := "prompt",
    code := some ("code" ++ toString n), video_url := none,
    thumbnail_url := none, duration_seconds := 0, order_index := Int.ofNat n,
    status := SceneStatus.pending, error_message := none,
    created_at := 0, updated_at := 0 }

/-- The render-service oracle that fails exactly on scene `s1`. -/
def demoEnvFail : Env :=
  { render := fun _ sid =>
      if sid == "s1" then .error "boom"
      else .ok { video_url := "/outputs/" ++ sid ++ ".mp4",
                 thumbnail_url := none, duration := 5 },
    now := 1 }

/-- A store holding the rendered artifacts of scenes `s0` and `s1`. -/
def w2FS : FS :=
  { pathExists := fun p => p == "OUT/s0.mp4" || p == "OUT/s1.mp4" }

/-- A freshly created job record for the witnesses. -/
def demoJob : Job := mkJob "job" none (some "p") 0

/-- Witness for C6 with two scenes: writes are 0, 40 (render phase), 85
(combine phase), 100 (success). -/
theorem C6_progress_schedule_witness :
    progressWrites (processRenderAllAndCombine okEnv w2FS wPE "OUT" "UP"
        demoJob [demoScene 0, demoScene 1] "p" none).2.2 = [0, 40, 85, 100] := by
  have h := C6_progress_schedule okEnv w2FS wPE "OUT" "UP" demoJob
      [demoScene 0, demoScene 1] "p" none
      (fun j hj => by
        have h2 : j < 2 := by simpa using hj
        interval_cases j <;> exact Or.inr ⟨_, rfl⟩)
      "/outputs/p_final.mp4" rfl
  rw [h]
  decide

lemma chain'_zero_cons (l : List Nat) (h : List.Chain' (· ≤ ·) l) :
    List.Chain' (· ≤ ·) (0 :: l) :=
  List.chain'_cons'.mpr ⟨fun b _ => Nat.zero_le b, h⟩

lemma chainA85 (i m total : Nat) (hm : i + m ≤ total) :
    List.Chain' (· ≤ ·)
      (((List.range m).map fun j => (i + j) * 80 / total) ++ [85]) := by
  refine List.Chain'.append (chainProgressMap i m total) (by simp) ?_
  intro x hx y hy
  have hx' := List.mem_of_mem_getLast? hx
  have hx80 : x ≤ 80 := mapProg_le i m total hm x hx'
  have hy' : 85 = y := by simpa using hy
  omega

lemma chainFull (i m total : Nat) (hm : i + m ≤ total) :
    List.Chain' (· ≤ ·)
      ((((List.range m).map fun j => (i + j) * 80 / total) ++ [85]) ++ [100]) := by
  refine List.Chain'.append (chainA85 i m total hm) (by simp) ?_
  intro x hx y hy
  rw [List.getLast?_concat] at hx
  have hx' : 85 = x := by simpa using hx
  have hy' : 100 = y := by simpa using hy
  omega

/-- C5: for every job of each of the three kinds, the values written to
the progress field over the job's lifetime (0 at creation, then the task's
writes in order) form a monotonically non-decreasing sequence; and for a
render-all-and-combine job whose scene renders and combine all succeed,
the sequence ends at exactly 100. -/
theorem C5_progress_monotone :
    (∀ (env : Env) (job : Job) (scene : Scene),
      List.Chain' (· ≤ ·)
        (0 :: progressWrites (processRender env job scene).2.2)) ∧
    (∀ (fs : FS) (pe : ProcEnv) (outD upD : String) (job : Job)
        (scenes : List Scene) (pid : String) (audio : Option String),
      List.Chain' (· ≤ ·)
        (0 :: progressWrites (processExport fs pe outD upD job scenes pid audio).2)) ∧
    (∀ (env : Env) (fs : FS) (pe : ProcEnv) (outD upD : String) (job : Job)
        (scenes : List Scene) (pid : String) (audio : Option String),
      List.Chain' (· ≤ ·)
        (0 :: progressWrites
          (processRenderAllAndCombine env fs pe outD upD job scenes pid audio).2.2)) ∧
    (∀ (env : Env) (fs : FS) (pe : ProcEnv) (outD upD : String) (job : Job)
        (scenes : List Scene) (pid : String) (audio : Option String),
      (∀ j (hj : j < scenes.length), stepSucceeds env (scenes.get ⟨j, hj⟩)) →
      ∀ url, compile_project fs pe outD upD (scenes.map (stepResult env))
          pid audio = .ok url →
      (0 :: progressWrites
          (processRenderAllAndCombine env fs pe outD upD job scenes pid audio).2.2).getLast? =
        some 100) := by
  refine ⟨?_, ?_, ?_, ?_⟩
  · intro env job scene
    rcases h : env.render scene.code scene.id with e | r <;>
      simp [processRender, progressWrites, h]
  · intro fs pe outD upD job scenes pid audio
    rcases h : compile_project fs pe outD upD scenes pid audio with e | url <;>
      simp [processExport, progressWrites, h]
  · intro env fs pe outD upD job scenes pid audio
    have hshape := renderLoop_progress_shape env scenes.length scenes 0
    rcases hloop : renderLoop env scenes.length 0 scenes with ⟨scs, evs⟩ | ⟨scs, k, e, evs⟩ <;>
      rw [hloop] at hshape <;> simp only [loopEvs] at hshape <;>
      obtain ⟨m, hm, hw⟩ := hshape
    · rw [processRAC_allOk env fs pe outD upD job scenes pid audio scs evs hloop]
      rcases hc : compile_project fs pe outD upD scs pid audio with e' | url
      · rw [combinePhase_error fs pe outD upD job scs pid audio evs e' hc]
        rw [progressWrites_append, progressWrites_append, hw]
        rw [show progressWrites [Ev.jobStatus "Combining scenes", Ev.progress 85,
              Ev.combineCall] = [85] from rfl,
            show progressWrites [Ev.jobStatus "failed", Ev.setError e'] = [] from rfl,
            List.append_nil]
        exact chain'_zero_cons _ (chainA85 0 m scenes.length (by omega))
      · rw [combinePhase_ok fs pe outD upD job scs pid audio evs url hc]
        rw [progressWrites_append, progressWrites_append, hw]
        rw [show progressWrites [Ev.jobStatus "Combining scenes", Ev.progress 85,
              Ev.combineCall] = [85] from rfl,
            show progressWrites [Ev.progress 100, Ev.jobStatus "completed",
              Ev.setOutput url] = [100] from rfl]
        exact chain'_zero_cons _ (chainFull 0 m scenes.length (by omega))
    · have hout : processRenderAllAndCombine env fs pe outD upD job scenes pid audio =
          (applyEvs job (evs ++ [Ev.jobStatus "failed",
             Ev.setError ("Failed to render scene " ++ toString (k + 1) ++ ": " ++ e)]),
           scs,
           evs ++ [Ev.jobStatus "failed",
             Ev.setError ("Failed to render scene " ++ toString (k + 1) ++ ": " ++ e)]) := by
        simp only [processRenderAllAndCombine]
        rw [hloop]
      rw [hout]
      rw [progressWrites_append, hw]
      rw [show progressWrites [Ev.jobStatus "failed",
            Ev.setError ("Failed to render scene " ++ toString (k + 1) ++ ": " ++ e)] =
          [] from rfl, List.append_nil]
      exact chain'_zero_cons _ (chainProgressMap 0 m scenes.length)
  · intro env fs pe outD upD job scenes pid audio hall url hc
    obtain ⟨evs, hloop, hw⟩ := renderLoop_allOk_of env scenes.length scenes 0 hall
    rw [processRAC_allOk env fs pe outD upD job scenes pid audio _ evs hloop,
        combinePhase_ok fs pe outD upD job _ pid audio evs url hc]
    rw [progressWrites_append, progressWrites_append, hw]
    rw [show progressWrites [Ev.jobStatus "Combining scenes", Ev.progress 85,
          Ev.combineCall] = [85] from rfl,
        show progressWrites [Ev.progress 100, Ev.jobStatus "completed",
          Ev.setOutput url] = [100] from rfl]
    rw [show (0 :: ((((List.range scenes.length).map
            fun j => (0 + j) * 80 / scenes.length) ++ [85]) ++ [100]) : List Nat) =
          (0 :: (((List.range scenes.length).map
            fun j => (0 + j) * 80 / scenes.length) ++ [85])) ++ [100] from rfl]
    exact List.getLast?_concat _

/-- Witness for C5: the monotone chain at a concrete single-scene job, and
the all-success two-scene render-all job ending at 100. -/
theorem C5_progress_monotone_witness :
    List.Chain' (· ≤ ·)
      (0 :: progressWrites (processRender okEnv demoJob (demoScene 0)).2.2) ∧
    (0 :: progressWrites (processRenderAllAndCombine okEnv w2FS wPE "OUT" "UP"
        demoJob [demoScene 0, demoScene 1] "p" none).2.2).getLast? = some 100 := by
  constructor
  · exact C5_progress_monotone.1 okEnv demoJob (demoScene 0)
  · exact C5_progress_monotone.2.2.2 okEnv w2FS wPE "OUT" "UP" demoJob
      [demoScene 0, demoScene 1] "p" none
      (fun j hj => by
        have h2 : j < 2 := by simpa using hj
        interval_cases j <;> exact Or.inr ⟨_, rfl⟩)
      "/outputs/p_final.mp4" rfl

/-- C7 counterexample: the single-scene-render task writes progress 10
when rendering starts, so the job's progress field does not only ever hold
0 and 100. -/
theorem C7_counterexample :
    ¬ (∀ v ∈ (0 :: progressWrites (processRender okEnv demoJob (demoScene 0)).2.2),
        v = 0 ∨ v = 100) := by
  decide

/-- C7 amended: a single-scene-render job's progress only ever holds 0
(creation), 10 (written when rendering starts), and 100 (success); the
full write sequence is 0, 10, 100 on success and 0, 10 on failure. -/
theorem C7_amended_progress (env : Env) (job : Job) (scene : Scene) :
    (∀ v ∈ (0 :: progressWrites (processRender env job scene).2.2),
      v = 0 ∨ v = 10 ∨ v = 100) ∧
    ((∃ r, env.render scene.code scene.id = .ok r) →
      0 :: progressWrites (processRender env job scene).2.2 = [0, 10, 100]) ∧
    ((∃ e, env.render scene.code scene.id = .error e) →
      0 :: progressWrites (processRender env job scene).2.2 = [0, 10]) := by
  rcases h : env.render scene.code scene.id with e | r <;>
    refine ⟨?_, ?_, ?_⟩ <;>
    simp [processRender, progressWrites, h]

/-- Witness for the amended C7 at a concrete successful render: the write
sequence is exactly 0, 10, 100. -/
theorem C7_amended_progress_witness :
    0 :: progressWrites (processRender okEnv demoJob (demoScene 0)).2.2 =
      [0, 10, 100] :=
  (C7_amended_progress okEnv demoJob (demoScene 0)).2.1 ⟨_, rfl⟩

/-- C8: for each of the three background tasks, once an observable job
state (creation, suspension points, final) has a terminal status
(`completed` or `failed`), every later observable state of the job record
is identical to it — no field is mutated after the job becomes terminal. -/
theorem C8_terminal_jobs_frozen :
    (∀ (env : Env) (job : Job) (scene : Scene), ¬ terminalStatus job.status →
      ∀ p q (hp : p < (jobTrace job (processRender env job scene).2.2).length)
          (hq : q < (jobTrace job (processRender env job scene).2.2).length),
        p ≤ q →
        terminalStatus
          ((jobTrace job (processRender env job scene).2.2).get ⟨p, hp⟩).status →
        (jobTrace job (processRender env job scene).2.2).get ⟨q, hq⟩ =
          (jobTrace job (processRender env job scene).2.2).get ⟨p, hp⟩) ∧
    (∀ (fs : FS) (pe : ProcEnv) (outD upD : String) (job : Job)
        (scenes : List Scene) (pid : String) (audio : Option String),
      ¬ terminalStatus job.status →
      ∀ p q (hp : p < (jobTrace job (processExport fs pe outD upD job scenes pid audio).2).length)
          (hq : q < (jobTrace job (processExport fs pe outD upD job scenes pid audio).2).length),
        p ≤ q →
        terminalStatus
          ((jobTrace job (processExport fs pe outD upD job scenes pid audio).2).get ⟨p, hp⟩).status →
        (jobTrace job (processExport fs pe outD upD job scenes pid audio).2).get ⟨q, hq⟩ =
          (jobTrace job (processExport fs pe outD upD job scenes pid audio).2).get ⟨p, hp⟩) ∧
    (∀ (env : Env) (fs : FS) (pe : ProcEnv) (outD upD : String) (job : Job)
        (scenes : List Scene) (pid : String) (audio : Option String),
      ¬ terminalStatus job.status →
      ∀ p q (hp : p < (jobTrace job
              (processRenderAllAndCombine env fs pe outD upD job scenes pid audio).2.2).length)
          (hq : q < (jobTrace job
              (processRenderAllAndCombine env fs pe outD upD job scenes pid audio).2.2).length),
        p ≤ q →
        terminalStatus
          ((jobTrace job
              (processRenderAllAndCombine env fs pe outD upD job scenes pid audio).2.2).get
            ⟨p, hp⟩).status →
        (jobTrace job
            (processRenderAllAndCombine env fs pe outD upD job scenes pid audio).2.2).get
          ⟨q, hq⟩ =
          (jobTrace job
              (processRenderAllAndCombine env fs pe outD upD job scenes pid audio).2.2).get
            ⟨p, hp⟩) := by
  refine ⟨?_, ?_, ?_⟩
  · intro env job scene h0 p q hp hq hpq hterm
    refine frozen_after_terminal
        (job :: awaitStates job (processRender env job scene).2.2)
        (applyEvs job (processRender env job scene).2.2) ?_ p q hp hq hpq hterm
    intro x hx
    rcases List.mem_cons.mp hx with h | h
    · subst h; exact h0
    · rcases hr : env.render scene.code scene.id with e | r <;>
        simp [processRender, awaitStates, applyEv, hr] at h <;>
        rw [h] <;> simp [terminalStatus]
  · intro fs pe outD upD job scenes pid audio h0 p q hp hq hpq hterm
    refine frozen_after_terminal
        (job :: awaitStates job (processExport fs pe outD upD job scenes pid audio).2)
        (applyEvs job (processExport fs pe outD upD job scenes pid audio).2)
        ?_ p q hp hq hpq hterm
    intro x hx
    rcases List.mem_cons.mp hx with h | h
    · subst h; exact h0
    · rcases hr : compile_project fs pe outD upD scenes pid audio with e | url <;>
        simp [processExport, awaitStates, applyEv, hr] at h <;>
        rw [h] <;> simp [terminalStatus]
  · intro env fs pe outD upD job scenes pid audio h0 p q hp hq hpq hterm
    refine frozen_after_terminal
        (job :: awaitStates job
          (processRenderAllAndCombine env fs pe outD upD job scenes pid audio).2.2)
        (applyEvs job
          (processRenderAllAndCombine env fs pe outD upD job scenes pid audio).2.2)
        ?_ p q hp hq hpq hterm
    intro x hx
    rcases List.mem_cons.mp hx with h | h
    · subst h; exact h0
    · have hlbl := renderLoop_await_labels env scenes.length scenes 0
      rcases hloop : renderLoop env scenes.length 0 scenes with ⟨scs, evs⟩ | ⟨scs, k, e, evs⟩ <;>
        rw [hloop] at hlbl <;> simp only [loopEvs] at hlbl
      · rw [processRAC_allOk env fs pe outD upD job scenes pid audio scs evs hloop] at h
        rcases hc : compile_project fs pe outD upD scs pid audio with e' | url
        · rw [combinePhase_error fs pe outD upD job scs pid audio evs e' hc] at h
          rw [awaitStates_append, awaitStates_append] at h
          rcases List.mem_append.mp h with h1 | h2
          · rcases List.mem_append.mp h1 with h3 | h4
            · obtain ⟨a, ha⟩ := hlbl job x h3
              rw [ha]
              exact renderingLabel_not_terminal a scenes.length
            · simp [awaitStates, applyEv] at h4
              rw [h4]; simp [terminalStatus]
          · simp [awaitStates, applyEv] at h2
        · rw [combinePhase_ok fs pe outD upD job scs pid audio evs url hc] at h
          rw [awaitStates_append, awaitStates_append] at h
          rcases List.mem_append.mp h with h1 | h2
          · rcases List.mem_append.mp h1 with h3 | h4
            · obtain ⟨a, ha⟩ := hlbl job x h3
              rw [ha]
              exact renderingLabel_not_terminal a scenes.length
            · simp [awaitStates, applyEv] at h4
              rw [h4]; simp [terminalStatus]
          · simp [awaitStates, applyEv] at h2
      · have hout : processRenderAllAndCombine env fs pe outD upD job scenes pid audio =
            (applyEvs job (evs ++ [Ev.jobStatus "failed",
               Ev.setError ("Failed to render scene " ++ toString (k + 1) ++ ": " ++ e)]),
             scs,
             evs ++ [Ev.jobStatus "failed",
               Ev.setError ("Failed to render scene " ++ toString (k + 1) ++ ": " ++ e)]) := by
          simp only [processRenderAllAndCombine]
          rw [hloop]
        rw [hout, awaitStates_append] at h
        rcases List.mem_append.mp h with h1 | h2
        · obtain ⟨a, ha⟩ := hlbl job x h1
          rw [ha]
          exact renderingLabel_not_terminal a scenes.length
        · simp [awaitStates, applyEv] at h2

/-- Witness for C8 at a concrete completed single-scene job: the terminal
final state equals itself at and after the terminal index. -/
theorem C8_terminal_jobs_frozen_witness :
    (jobTrace demoJob (processRender okEnv demoJob (demoScene 0)).2.2).get
        ⟨2, by decide⟩ =
      (jobTrace demoJob (processRender okEnv demoJob (demoScene 0)).2.2).get
        ⟨2, by decide⟩ := by
  exact C8_terminal_jobs_frozen.1 okEnv demoJob (demoScene 0) (by decide)
    2 2 (by decide) (by decide) (Nat.le_refl 2) (by decide)

lemma findUnrendered_none_iff (sdb : List (String × Scene)) :
    ∀ (ids : List String),
      findUnrendered sdb ids = none ↔
        ∀ sid ∈ ids, ∀ sc, lookup sdb sid = some sc →
          sc.status = SceneStatus.completed := by
  intro ids
  induction ids with
  | nil => simp [findUnrendered]
  | cons sid rest ih =>
      rcases hl : lookup sdb sid with _ | sc
      · simp only [findUnrendered, hl]
        rw [ih]
        constructor
        · intro h s hs sc' hsc'
          rcases List.mem_cons.mp hs with h1 | h1
          · subst h1; rw [hl] at hsc'; exact absurd hsc' (by simp)
          · exact h s h1 sc' hsc'
        · intro h s hs sc' hsc'
          exact h s (List.mem_cons_of_mem _ hs) sc' hsc'
      · by_cases hst : sc.status = SceneStatus.completed
        · simp only [findUnrendered, hl, hst]
          simp only [bne_self_eq_false, Bool.false_eq_true, if_false]
          rw [ih]
          constructor
          · intro h s hs sc' hsc'
            rcases List.mem_cons.mp hs with h1 | h1
            · subst h1; rw [hl] at hsc'
              cases hsc'
              exact hst
            · exact h s h1 sc' hsc'
          · intro h s hs sc' hsc'
            exact h s (List.mem_cons_of_mem _ hs) sc' hsc'
        · simp only [findUnrendered, hl]
          have hb : (sc.status != SceneStatus.completed) = true := by
            simpa using hst
          rw [if_pos hb]
          constructor
          · intro h; exact absurd h (by simp)
          · intro h
            exact absurd (h sid (List.mem_cons_self _ _) sc hl) hst

lemma findUnrendered_some (sdb : List (String × Scene)) :
    ∀ (ids : List String) (sid : String),
      findUnrendered sdb ids = some sid →
      sid ∈ ids ∧ ∃ sc, lookup sdb sid = some sc ∧
        sc.status ≠ SceneStatus.completed := by
  intro ids
  induction ids with
  | nil => intro sid h; exact absurd h (by simp [findUnrendered])
  | cons s0 rest ih =>
      intro sid h
      rcases hl : lookup sdb s0 with _ | sc
      · simp only [findUnrendered, hl] at h
        obtain ⟨h1, h2⟩ := ih sid h
        exact ⟨List.mem_cons_of_mem _ h1, h2⟩
      · simp only [findUnrendered, hl] at h
        by_cases hst : (sc.status != SceneStatus.completed) = true
        · rw [if_pos hst] at h
          cases h
          exact ⟨List.mem_cons_self _ _, sc, hl, by simpa using hst⟩
        · rw [if_neg hst] at h
          obtain ⟨h1, h2⟩ := ih sid h
          exact ⟨List.mem_cons_of_mem _ h1, h2⟩

/-- C9: export-combine submission, on a registry-consistent state (the
target project resolves and all its scene references resolve): a project
with no scene references is rejected 400 with no job created; if some
referenced scene is not `completed`, the submission is rejected 400 naming
an offending scene, with no job created; and when every referenced scene
is `completed`, the pending job record (status `pending`, progress 0) is
created, stored, and returned before any async work runs. -/
theorem C9_export_precondition (projects_db : List (String × Project))
    (scenes_db : List (String × Scene)) (render_jobs : List (String × Job))
    (pid jid : String) (now : Nat) (P : Project)
    (hP : lookup projects_db pid = some P)
    (_hclosed : ∀ sid ∈ P.scenes, ∃ sc, lookup scenes_db sid = some sc) :
    (P.scenes = [] →
      export_project projects_db scenes_db render_jobs pid jid now =
        .error (400, "Project has no scenes")) ∧
    ((∃ sid ∈ P.scenes, ∃ sc, lookup scenes_db sid = some sc ∧
        sc.status ≠ SceneStatus.completed) →
      ∃ sid ∈ P.scenes, ∃ sc, lookup scenes_db sid = some sc ∧
        sc.status ≠ SceneStatus.completed ∧
        export_project projects_db scenes_db render_jobs pid jid now =
          .error (400, "Scene " ++ sid ++ " is not rendered yet")) ∧
    (P.scenes ≠ [] →
      (∀ sid ∈ P.scenes, ∀ sc, lookup scenes_db sid = some sc →
        sc.status = SceneStatus.completed) →
      export_project projects_db scenes_db render_jobs pid jid now =
        .ok (render_jobs ++ [(jid, mkJob jid none (some pid) now)],
             mkJob jid none (some pid) now) ∧
      (mkJob jid none (some pid) now).status = "pending" ∧
      (mkJob jid none (some pid) now).progress = 0 ∧
      (mkJob jid none (some pid) now).output_url = none) := by
  refine ⟨?_, ?_, ?_⟩
  · intro h
    simp [export_project, hP, h]
  · intro hex
    have hne : P.scenes ≠ [] := by
      obtain ⟨sid, hsid, _⟩ := hex
      intro hcon
      rw [hcon] at hsid
      exact absurd hsid (by simp)
    have hie : P.scenes.isEmpty = false := by
      simpa [List.isEmpty_eq_false] using hne
    rcases hf : findUnrendered scenes_db P.scenes with _ | sid₀
    · exfalso
      obtain ⟨sid, hsid, sc, hsc, hst⟩ := hex
      exact hst ((findUnrendered_none_iff scenes_db P.scenes).mp hf sid hsid sc hsc)
    · obtain ⟨hmem, sc, hsc, hst⟩ := findUnrendered_some scenes_db P.scenes sid₀ hf
      refine ⟨sid₀, hmem, sc, hsc, hst, ?_⟩
      simp [export_project, hP, hie, hf]
  · intro hne hall
    have hie : P.scenes.isEmpty = false := by
      simpa [List.isEmpty_eq_false] using hne
    have hf : findUnrendered scenes_db P.scenes = none :=
      (findUnrendered_none_iff scenes_db P.scenes).mpr hall
    refine ⟨?_, rfl, rfl, rfl⟩
    simp [export_project, hP, hie, hf]

/-- Concrete registries for the C9 witness: one project with no scenes,
one whose single referenced scene is completed. -/
def wProjEmpty : Project :=
  { id := "pe", name := "empty", description := none, created_at := 0,
    updated_at := 0, scene_count := 0, scenes := [], audio_url := none }

def wProjDone : Project :=
  { id := "pd", name := "done", description := none, created_at := 0,
    updated_at := 0, scene_count := 1, scenes := ["sa"], audio_url := none }

def wSdb : List (String × Scene) :=
  [("sa", wScene "sa" (some "/outputs/sa.mp4"))]

def wPdb : List (String × Project) := [("pe", wProjEmpty), ("pd", wProjDone)]

/-- Witness for C9: the empty project is rejected synchronously with 400,
and the all-completed project gets a pending job created and returned. -/
theorem C9_export_precondition_witness :
    export_project wPdb wSdb [] "pe" "j1" 0 =
      .error (400, "Project has no scenes") ∧
    export_project wPdb wSdb [] "pd" "j2" 0 =
      .ok ([("j2", mkJob "j2" none (some "pd") 0)],
           mkJob "j2" none (some "pd") 0) := by
  constructor
  · exact (C9_export_precondition wPdb wSdb [] "pe" "j1" 0 wProjEmpty rfl
      (by intro sid hsid; exact absurd hsid (by simp [wProjEmpty]))).1 rfl
  · refine ((C9_export_precondition wPdb wSdb [] "pd" "j2" 0 wProjDone rfl
      ?_).2.2 (by simp [wProjDone]) ?_).1
    · intro sid hsid
      simp [wProjDone] at hsid
      subst hsid
      exact ⟨_, rfl⟩
    · intro sid hsid sc hsc
      simp [wProjDone] at hsid
      subst hsid
      rw [show lookup wSdb "sa" = some (wScene "sa" (some "/outputs/sa.mp4"))
            from rfl] at hsc
      cases hsc
      rfl

/-- Witness for C1 with three scenes where scene 2 (index 1) fails: job
failed with the message naming scene 2, scene 1 completed, scene 3
untouched, and no combine call. -/
theorem C1_partial_failure_aborts_job_witness :
    (processRenderAllAndCombine demoEnvFail w2FS wPE "OUT" "UP" demoJob
        [demoScene 0, demoScene 1, demoScene 2] "p" none).1.status = "failed" ∧
    (processRenderAllAndCombine demoEnvFail w2FS wPE "OUT" "UP" demoJob
        [demoScene 0, demoScene 1, demoScene 2] "p" none).1.error_message =
      some ("Failed to render scene " ++ toString (1 + 1) ++ ": " ++ "boom") ∧
    ((processRenderAllAndCombine demoEnvFail w2FS wPE "OUT" "UP" demoJob
        [demoScene 0, demoScene 1, demoScene 2] "p" none).2.1[2]? =
      some (demoScene 2)) ∧
    Ev.combineCall ∉ (processRenderAllAndCombine demoEnvFail w2FS wPE "OUT" "UP"
        demoJob [demoScene 0, demoScene 1, demoScene 2] "p" none).2.2 := by
  have h := C1_partial_failure_aborts_job demoEnvFail w2FS wPE "OUT" "UP" demoJob
      [demoScene 0, demoScene 1, demoScene 2] "p" none 1 "boom" (by decide)
      (fun j hj => by
        have hj0 : j = 0 := by omega
        subst hj0
        exact Or.inr ⟨_, rfl⟩)
      ⟨rfl, rfl⟩
  exact ⟨h.1, h.2.1, by rw [h.2.2.2.2.1 2 (by omega)]; rfl, h.2.2.2.2.2⟩

end ManimGen
